import Mathlib

/-!
Shallow embedding of
`tensorflow/compiler/mlir/tensorflow/transforms/legalize_hlo.cc`: the
HLO-to-TF legalization pass, with its hand-written slice rewrite
(`ConvertSliceOp`), the dot rewrite (`ConvertDotOp`), and the conversion
target set up by `LegalizeHloToTf::runOnFunction`.

Machine integers held by MLIR attributes are modelled as `Int`: every
element of a `DenseIntElementsAttr` is recorded as the signed value that
`APInt::getSExtValue()` would return for it (the MLIR integer types used
here are at most 64 bits wide, so `getSExtValue` is exact).  Shapes are
lists of `Int` because MLIR dimension sizes are `int64_t`.
-/

namespace LegalizeHlo

/-- Element kind of a tensor type (the MLIR element type). -/
inductive ElemKind where
  | int (width : Nat)
  | f32
  | other (name : String)
deriving DecidableEq

/-- A ranked tensor type (`RankedTensorType`): an ordered list of dimension
sizes plus an element kind.  Two types are equal iff both components are. -/
structure TensorType where
  shape : List Int
  elemKind : ElemKind
deriving DecidableEq

/-- The rank of a ranked tensor type: the number of dimensions. -/
def TensorType.rank (ty : TensorType) : Nat := ty.shape.length

/-- `DenseIntElementsAttr`: a dense integer-tensor attribute.  `shape` is the
shape of its tensor type, `elemWidth` the bit width of its integer element
type, and `values` the elements in order, each stored as its signed value
(what `APInt::getSExtValue()` returns on the stored `APInt`). -/
structure DenseIntElementsAttr where
  shape : List Int
  elemWidth : Nat
  values : List Int
deriving DecidableEq

/-- `DenseElementsAttr::isSplat`: the attribute consists of a single value
repeated over every element. -/
def DenseIntElementsAttr.isSplat (a : DenseIntElementsAttr) : Bool :=
  match a.values with
  | [] => false
  | v :: rest => rest.all (fun w => w == v)

/-- `getSplatValue().cast<IntegerAttr>().getInt()`: the repeated element of a
splat attribute, as a signed integer.  Only meaningful when `isSplat`. -/
def DenseIntElementsAttr.getSplatValue (a : DenseIntElementsAttr) : Int :=
  a.values.headD 0

/-- An `xla_hlo.slice` operation: its operand (a value reference plus the
operand's type), its three dense integer attributes, and its declared result
type (`slice_op.getType()`). -/
structure SliceOp where
  operand : Nat
  operandType : TensorType
  start_indices : DenseIntElementsAttr
  limit_indices : DenseIntElementsAttr
  strides : DenseIntElementsAttr
  resultType : TensorType
deriving DecidableEq

/-- The operations a function touched by this pass can contain, as far as the
slice rewrite and the legality classifier are concerned.  A `tfSlice` op
holds its result type, its operand value reference, and the start/size
constants it was built from; `generic` covers every other operation by its
dialect and kind name. -/
inductive Op where
  | hloSlice (s : SliceOp)
  | tfConst (value : DenseIntElementsAttr)
  | tfSlice (ty : TensorType) (operand : Nat)
      (start size : DenseIntElementsAttr)
  | generic (dialect opname : String)
deriving DecidableEq

/-- The dialect an operation belongs to. -/
def Op.dialect : Op → String
  | .hloSlice _ => "xla_hlo"
  | .tfConst _ => "tf"
  | .tfSlice _ _ _ _ => "tf"
  | .generic d _ => d

/-- The operation's kind name inside its dialect. -/
def Op.opname : Op → String
  | .hloSlice _ => "slice"
  | .tfConst _ => "Const"
  | .tfSlice _ _ _ _ => "Slice"
  | .generic _ n => n

/-- A dialect-qualified operation kind. -/
structure OpKind where
  dialect : String
  name : String
deriving DecidableEq

/-- The kind of an operation: its dialect plus its name. -/
def Op.kind (op : Op) : OpKind := ⟨op.dialect, op.opname⟩

/-- The `ConversionTarget` configured by `LegalizeHloToTf::runOnFunction`:
`addLegalDialect<TensorFlowDialect>()` makes the whole `tf` dialect legal,
and `addLegalOp<CallOp, ConstantOp>` allow-lists the standard dialect's
`std.call` and `std.constant` operations individually. -/
def isLegal (k : OpKind) : Bool :=
  k.dialect == "tf" ||
    (k.dialect == "std" && (k.name == "call" || k.name == "constant"))

/-- Legality of an operation: a function of its kind alone. -/
def isLegalOp (op : Op) : Bool := isLegal op.kind

/-- The size computation of `ConvertSliceOp::matchAndRewrite`: zip the start
and limit attributes and take `limit.getSExtValue() - start.getSExtValue()`
per axis (`llvm::zip` stops at the shorter sequence, as `zipWith` does). -/
def sliceSizeValues (start limit : DenseIntElementsAttr) : List Int :=
  List.zipWith (fun st li => li - st) start.values limit.values

/-- What a successful run of `ConvertSliceOp::matchAndRewrite` emits: the
attribute of the first constant (`start`), the attribute of the second
constant (`size`), and the result type and operand of the replacement
`TF::SliceOp`. -/
structure SliceEmission where
  startConst : DenseIntElementsAttr
  sizeConst : DenseIntElementsAttr
  newSliceType : TensorType
  newSliceOperand : Nat
deriving DecidableEq

/-- The emission built in the body of `ConvertSliceOp::matchAndRewrite` once
the stride check has passed: the start constant reuses `start_indices`
verbatim; the size constant's type is
`RankedTensorType::get({size_values.size()}, i64)`; the replacement slice
keeps `slice_op.getType()` and `slice_op.operand()`. -/
def sliceEmission (s : SliceOp) : SliceEmission :=
  let size_values := sliceSizeValues s.start_indices s.limit_indices
  { startConst := s.start_indices
  , sizeConst :=
      { shape := [(size_values.length : Int)]
      , elemWidth := 64
      , values := size_values }
  , newSliceType := s.resultType
  , newSliceOperand := s.operand }

/-- `ConvertSliceOp::matchAndRewrite`: fails (returns `none`, i.e.
`failure()`) unless the strides attribute is a splat whose value is 1;
otherwise emits the two constants and the replacement `TF::SliceOp`. -/
def ConvertSliceOp_matchAndRewrite (s : SliceOp) : Option SliceEmission :=
  if ¬ (s.strides.isSplat = true ∧ s.strides.getSplatValue = 1) then none
  else some (sliceEmission s)

/-- The operations emitted by a successful slice rewrite, in creation order:
the start constant, the size constant, then the replacement `TF::SliceOp`
over `(operand, start, size)`. -/
def sliceEmittedOps (e : SliceEmission) : List Op :=
  [Op.tfConst e.startConst, Op.tfConst e.sizeConst,
   Op.tfSlice e.newSliceType e.newSliceOperand e.startConst e.sizeConst]

/-- Replace the first occurrence of `old` in a function body by the list
`new` (the rewriter's `replaceOpWithNewOp`). -/
def replaceOpWith (prog : List Op) (old : Op) (new : List Op) : List Op :=
  match prog with
  | [] => []
  | op :: rest =>
      if op = old then new ++ rest else op :: replaceOpWith rest old new

/-- `ConvertSliceOp::matchAndRewrite` seen as a transformer of the rewriter
state (the function body): in the source, the `return failure()` for a
non-unit stride happens before any call on the rewriter, so on failure the
program is returned untouched; on success the slice is replaced by the
emitted operations. -/
def ConvertSliceOp_onState (prog : List Op) (s : SliceOp) :
    List Op × Bool :=
  match ConvertSliceOp_matchAndRewrite s with
  | none => (prog, false)
  | some e => (replaceOpWith prog (Op.hloSlice s) (sliceEmittedOps e), true)

/-- Whether the slice rewrite's precondition holds for an operation. -/
def sliceApplicable : Op → Bool
  | .hloSlice s => s.strides.isSplat && s.strides.getSplatValue == 1
  | _ => false

/-- Modelled from the spec: the conversion driver (`applyPartialConversion`
from the MLIR library, which is not part of this repository's sources)
processes each operation of the function: a legal operation is kept
(`Converted`); an illegal one is handed to the registered patterns — here
`ConvertSliceOp` for `xla_hlo.slice` — and on success is replaced by the
emitted operations, which are themselves re-classified; an illegal
operation with no applicable pattern is left in place and makes the whole
conversion fail. -/
def convertOps : List Op → List Op × Bool
  | [] => ([], true)
  | op :: rest =>
      if isLegalOp op then
        (op :: (convertOps rest).1, (convertOps rest).2)
      else
        match op with
        | Op.hloSlice s =>
            match ConvertSliceOp_matchAndRewrite s with
            | some e =>
                (sliceEmittedOps e ++ (convertOps rest).1,
                 (sliceEmittedOps e).all isLegalOp && (convertOps rest).2)
            | none => (op :: (convertOps rest).1, false)
        | _ => (op :: (convertOps rest).1, false)

/-- Outcome of running the pass on one function: the resulting operations,
whether `emitError` ran, and whether `signalPassFailure` ran. -/
structure PassResult where
  ops : List Op
  errorEmitted : Bool
  passFailed : Bool
deriving DecidableEq

/-- `LegalizeHloToTf::runOnFunction` around the spec-modelled driver: if
`applyPartialConversion` fails, an error is emitted and pass failure is
signalled; otherwise neither happens. -/
def LegalizeHloToTf_runOnFunction (ops : List Op) : PassResult :=
  if (convertOps ops).2 then ⟨(convertOps ops).1, false, false⟩
  else ⟨(convertOps ops).1, true, true⟩

/-- An `xla_hlo.dot` operation: the types of its two operands and its
declared result type. -/
structure DotOp where
  lhsType : TensorType
  rhsType : TensorType
  resultType : TensorType
deriving DecidableEq

/-- `normalize_rank` from `ConvertDotOp`: does nothing to a type of rank 2
or more; otherwise inserts `2 - rank` leading dimensions of size 1 (the
source loop inserts a 1 at the front `2 - rank` times). -/
def normalize_rank (ty : TensorType) : TensorType :=
  if ty.rank ≥ 2 then ty
  else
    { shape := List.replicate (2 - ty.rank) 1 ++ ty.shape
    , elemKind := ty.elemKind }

/-- An operation emitted by `ConvertDotOp`: an `xla_hlo.reshape` to a result
type, or a `tf.MatMul` with a result type and its two transpose flags. -/
inductive DotEmitOp where
  | reshape (resultType : TensorType)
  | matMul (resultType : TensorType) (transpose_a transpose_b : Bool)
deriving DecidableEq

/-- The result type of an emitted operation. -/
def DotEmitOp.resultType : DotEmitOp → TensorType
  | .reshape t => t
  | .matMul t _ _ => t

/-- Whether an emitted operation is a reshape. -/
def DotEmitOp.isReshape : DotEmitOp → Bool
  | .reshape _ => true
  | _ => false

/-- Whether an emitted operation is the matrix multiply. -/
def DotEmitOp.isMatMul : DotEmitOp → Bool
  | .matMul _ _ _ => true
  | _ => false

/-- `reshape_to_2d` from `ConvertDotOp`: a value of rank 2 or more is passed
through and no operation is created; otherwise an `xla_hlo.reshape` to the
rank-normalized type is emitted and its result is used.  Returns the emitted
operations together with the type of the value handed on. -/
def reshape_to_2d (inputType : TensorType) : List DotEmitOp × TensorType :=
  if inputType.rank ≥ 2 then ([], inputType)
  else ([DotEmitOp.reshape (normalize_rank inputType)],
        normalize_rank inputType)

/-- `ConvertDotOp`: reshape both operands to 2-D when needed, emit
`tf.MatMul` with `transpose_a = false` and `transpose_b` true exactly when
the rhs's original rank is 1, with result type `normalize_rank` of the dot's
result type, then emit an `xla_hlo.reshape` of the product back to the dot's
declared result type and return that reshape's result.  The first component
lists the emitted operations in creation order; the second is the type of
the returned value. -/
def ConvertDotOp (dot_op : DotOp) : List DotEmitOp × TensorType :=
  let a := reshape_to_2d dot_op.lhsType
  let b := reshape_to_2d dot_op.rhsType
  let transpose_b : Bool := dot_op.rhsType.rank == 1
  let matmul :=
    DotEmitOp.matMul (normalize_rank dot_op.resultType) false transpose_b
  let reshape := DotEmitOp.reshape dot_op.resultType
  (a.1 ++ b.1 ++ [matmul, reshape], reshape.resultType)

/-- Scenario A's slice: start = [0,1], limit = [4,3], strides = [1,1] on a
rank-2 operand. -/
def sliceScenarioA : SliceOp :=
  { operand := 0
  , operandType := ⟨[4, 3], ElemKind.f32⟩
  , start_indices := ⟨[2], 64, [0, 1]⟩
  , limit_indices := ⟨[2], 64, [4, 3]⟩
  , strides := ⟨[2], 64, [1, 1]⟩
  , resultType := ⟨[4, 2], ElemKind.f32⟩ }

/-- Scenario A's non-unit-stride variant: strides = [2,1]. -/
def sliceStride21 : SliceOp :=
  { sliceScenarioA with strides := ⟨[2], 64, [2, 1]⟩ }

/-- A slice whose limit is below its start on the only axis, with 32-bit
start/limit/stride attributes. -/
def sliceNegSize : SliceOp :=
  { operand := 0
  , operandType := ⟨[5], ElemKind.f32⟩
  , start_indices := ⟨[1], 32, [3]⟩
  , limit_indices := ⟨[1], 32, [1]⟩
  , strides := ⟨[1], 32, [1]⟩
  , resultType := ⟨[0], ElemKind.f32⟩ }

/-- Scenario B's dot: both operands of shape [8], scalar result. -/
def dotScenarioB : DotOp :=
  ⟨⟨[8], ElemKind.f32⟩, ⟨[8], ElemKind.f32⟩, ⟨[], ElemKind.f32⟩⟩

/-- Scenario C's dot: operands [3,4] and [4,5], result [3,5]. -/
def dotScenarioC : DotOp :=
  ⟨⟨[3, 4], ElemKind.f32⟩, ⟨[4, 5], ElemKind.f32⟩, ⟨[3, 5], ElemKind.f32⟩⟩

/-! Helper lemmas shared by several theorems. -/

/-- The slice rewrite fails when the stride precondition does not hold. -/
theorem convertSlice_none (s : SliceOp)
    (h : ¬ (s.strides.isSplat = true ∧ s.strides.getSplatValue = 1)) :
    ConvertSliceOp_matchAndRewrite s = none := by
  unfold ConvertSliceOp_matchAndRewrite
  exact if_pos h

/-- The slice rewrite succeeds with `sliceEmission` when the stride
precondition holds. -/
theorem convertSlice_some (s : SliceOp)
    (h : s.strides.isSplat = true ∧ s.strides.getSplatValue = 1) :
    ConvertSliceOp_matchAndRewrite s = some (sliceEmission s) := by
  unfold ConvertSliceOp_matchAndRewrite
  rw [if_neg (not_not_intro h)]

/-- Element `i` of the zipped subtraction is the pointwise difference. -/
theorem zipWith_sub_getD (as bs : List Int) (i : Nat)
    (ha : i < as.length) (hb : i < bs.length) :
    (List.zipWith (fun st li => li - st) as bs).getD i 0 =
      bs.getD i 0 - as.getD i 0 := by
  induction as generalizing bs i with
  | nil => simp at ha
  | cons a as ih =>
    cases bs with
    | nil => simp at hb
    | cons b bs =>
      cases i with
      | zero => rfl
      | succ n =>
        simp only [List.zipWith_cons_cons, List.getD_cons_succ]
        exact ih bs n (by simpa using ha) (by simpa using hb)

/-- Every operation emitted by the slice rewrite is legal: the two constants
and the new slice are all `tf`-dialect operations. -/
theorem sliceEmittedOps_legal (e : SliceEmission) :
    (sliceEmittedOps e).all isLegalOp = true := rfl

/-- The driver succeeds when every operation is legal or slice-rewritable. -/
theorem convertOps_ok (ops : List Op)
    (h : ∀ op ∈ ops, isLegalOp op = true ∨ sliceApplicable op = true) :
    (convertOps ops).2 = true := by
  induction ops with
  | nil => rfl
  | cons op rest ih =>
    have hop := h op (List.mem_cons_self op rest)
    have ihr := ih (fun o ho => h o (List.mem_cons_of_mem op ho))
    by_cases hl : isLegalOp op = true
    · simp [convertOps, hl, ihr]
    · cases op with
      | hloSlice s =>
        have happ : sliceApplicable (Op.hloSlice s) = true :=
          hop.resolve_left hl
        have hs : s.strides.isSplat = true ∧ s.strides.getSplatValue = 1 := by
          simpa [sliceApplicable] using happ
        rw [Bool.not_eq_true] at hl
        simp [convertOps, hl, convertSlice_some s hs,
          sliceEmittedOps_legal, ihr]
      | tfConst v => exact absurd rfl hl
      | tfSlice ty o st sz => exact absurd rfl hl
      | generic d n =>
        have := hop.resolve_left hl
        simp [sliceApplicable] at this

/-- The driver fails, and keeps the offending operation, when some operation
is neither legal nor slice-rewritable. -/
theorem convertOps_fail (ops : List Op) (op : Op) (hmem : op ∈ ops)
    (hl : isLegalOp op = false) (ha : sliceApplicable op = false) :
    (convertOps ops).2 = false ∧ op ∈ (convertOps ops).1 := by
  induction ops with
  | nil => cases hmem
  | cons o rest ih =>
    rcases List.mem_cons.mp hmem with rfl | hmem'
    · cases op with
      | hloSlice s =>
        have hnone : ConvertSliceOp_matchAndRewrite s = none := by
          apply convertSlice_none
          intro hc
          have : sliceApplicable (Op.hloSlice s) = true := by
            simp [sliceApplicable, hc.1, hc.2]
          rw [ha] at this
          cases this
        simp [convertOps, hl, hnone]
      | tfConst v =>
        have : isLegalOp (Op.tfConst v) = true := rfl
        rw [hl] at this
        cases this
      | tfSlice ty o st sz =>
        have : isLegalOp (Op.tfSlice ty o st sz) = true := rfl
        rw [hl] at this
        cases this
      | generic d n => simp [convertOps, hl]
    · have ih' := ih hmem'
      by_cases hlo : isLegalOp o = true
      · simp [convertOps, hlo, ih'.1, ih'.2]
      · rw [Bool.not_eq_true] at hlo
        cases o with
        | hloSlice s =>
          cases hmr : ConvertSliceOp_matchAndRewrite s with
          | none => simp [convertOps, hlo, hmr, ih'.2]
          | some e => simp [convertOps, hlo, hmr, ih'.1, ih'.2]
        | tfConst v => simp [convertOps, hlo, ih'.2]
        | tfSlice ty o2 st sz => simp [convertOps, hlo, ih'.2]
        | generic d n => simp [convertOps, hlo, ih'.2]

/-! Claim theorems. -/

/-- Claim C1: for every strided-slice whose stride attribute is splat-equal
to 1, the rewrite computes size[i] = limit[i] - start[i] on each axis,
materializes the start indices and the size vector as two constant
operations, and replaces the slice by a `TF::SliceOp` over
`(operand, start, size)` whose result type equals the original result type;
on start=[0,1], limit=[4,3], stride=[1,1] the size vector is [4,2]. -/
theorem ConvertSliceOp_unit_stride_rewrite (s : SliceOp)
    (h : s.strides.isSplat = true ∧ s.strides.getSplatValue = 1) :
    (ConvertSliceOp_matchAndRewrite s = some (sliceEmission s) ∧
     (sliceEmission s).sizeConst.values =
       List.zipWith (fun st li => li - st)
         s.start_indices.values s.limit_indices.values ∧
     (sliceEmission s).startConst = s.start_indices ∧
     (sliceEmission s).newSliceType = s.resultType ∧
     sliceEmittedOps (sliceEmission s) =
       [Op.tfConst s.start_indices,
        Op.tfConst (sliceEmission s).sizeConst,
        Op.tfSlice s.resultType s.operand s.start_indices
          (sliceEmission s).sizeConst]) ∧
    (sliceEmission sliceScenarioA).startConst.values = [0, 1] ∧
    (sliceEmission sliceScenarioA).sizeConst.values = [4, 2] :=
  ⟨⟨convertSlice_some s h, rfl, rfl, rfl, rfl⟩, by decide, by decide⟩

/-- Witness for C1: the theorem applied to the Scenario A slice. -/
theorem ConvertSliceOp_unit_stride_rewrite_witness :
    ConvertSliceOp_matchAndRewrite sliceScenarioA =
      some (sliceEmission sliceScenarioA) ∧
    (sliceEmission sliceScenarioA).sizeConst.values = [4, 2] :=
  ⟨(ConvertSliceOp_unit_stride_rewrite sliceScenarioA (by decide)).1.1,
   (ConvertSliceOp_unit_stride_rewrite sliceScenarioA (by decide)).2.2⟩

/-- Claim C2: the slice rewrite applies iff the strides attribute is a splat
whose repeated value is 1; for non-splat strides or a splat different from
1 it returns failure (`none`). -/
theorem ConvertSliceOp_applicable_iff_splat_one (s : SliceOp) :
    ((ConvertSliceOp_matchAndRewrite s).isSome ↔
      s.strides.isSplat = true ∧ s.strides.getSplatValue = 1) ∧
    (¬ (s.strides.isSplat = true ∧ s.strides.getSplatValue = 1) →
      ConvertSliceOp_matchAndRewrite s = none) := by
  constructor
  · constructor
    · intro hs
      by_contra hc
      rw [convertSlice_none s hc] at hs
      simp at hs
    · intro hc
      rw [convertSlice_some s hc]
      rfl
  · exact convertSlice_none s

/-- Witness for C2: the non-uniform stride [2,1] makes the rule fail. -/
theorem ConvertSliceOp_applicable_iff_splat_one_witness :
    ConvertSliceOp_matchAndRewrite sliceStride21 = none :=
  (ConvertSliceOp_applicable_iff_splat_one sliceStride21).2 (by decide)

/-- Claim C9: when the slice rule is not applicable, the rewriter state (the
function body) is returned untouched together with failure: no operation is
created, removed or modified. -/
theorem ConvertSliceOp_no_mutation_on_failure (prog : List Op) (s : SliceOp)
    (h : ¬ (s.strides.isSplat = true ∧ s.strides.getSplatValue = 1)) :
    ConvertSliceOp_onState prog s = (prog, false) := by
  unfold ConvertSliceOp_onState
  rw [convertSlice_none s h]

/-- Witness for C9: a concrete two-operation program is left unchanged by
the rule failing on the stride-[2,1] slice. -/
theorem ConvertSliceOp_no_mutation_on_failure_witness :
    ConvertSliceOp_onState
        [Op.hloSlice sliceStride21, Op.generic "tf" "Identity"]
        sliceStride21 =
      ([Op.hloSlice sliceStride21, Op.generic "tf" "Identity"], false) :=
  ConvertSliceOp_no_mutation_on_failure _ sliceStride21 (by decide)

/-- Claim C10: the size vector is the exact signed difference of the
sign-extended limit and start with no check that limit ≥ start, so an axis
with limit < start yields a negative size entry while the rewrite still
applies; and the size constant's type is always 1-D of extent equal to the
number of axes with element width 64, independent of the width of the
original start/limit attributes. -/
theorem ConvertSliceOp_size_signed_i64 (s : SliceOp) (e : SliceEmission)
    (h : ConvertSliceOp_matchAndRewrite s = some e) :
    e.sizeConst.elemWidth = 64 ∧
    e.sizeConst.shape =
      [((sliceSizeValues s.start_indices s.limit_indices).length : Int)] ∧
    e.sizeConst.values = sliceSizeValues s.start_indices s.limit_indices ∧
    (∀ i : Nat, i < s.start_indices.values.length →
       i < s.limit_indices.values.length →
       s.limit_indices.values.getD i 0 < s.start_indices.values.getD i 0 →
       e.sizeConst.values.getD i 0 < 0) := by
  have he : e = sliceEmission s := by
    by_cases hc : s.strides.isSplat = true ∧ s.strides.getSplatValue = 1
    · rw [convertSlice_some s hc] at h
      exact (Option.some.inj h).symm
    · rw [convertSlice_none s hc] at h
      cases h
  subst he
  refine ⟨rfl, rfl, rfl, ?_⟩
  intro i hi1 hi2 hlt
  have hz := zipWith_sub_getD s.start_indices.values
    s.limit_indices.values i hi1 hi2
  show (sliceSizeValues s.start_indices s.limit_indices).getD i 0 < 0
  unfold sliceSizeValues
  rw [hz]
  omega

/-- Witness for C10: a slice with 32-bit attributes, start=[3], limit=[1],
stride=[1] still rewrites, its size constant is i64 of shape [1], and its
single size value is negative. -/
theorem ConvertSliceOp_size_signed_i64_witness :
    (sliceEmission sliceNegSize).sizeConst.elemWidth = 64 ∧
    (sliceEmission sliceNegSize).sizeConst.shape = [1] ∧
    (sliceEmission sliceNegSize).sizeConst.values.getD 0 0 < 0 := by
  have h := ConvertSliceOp_size_signed_i64 sliceNegSize
    (sliceEmission sliceNegSize) (by decide)
  exact ⟨h.1, h.2.1.trans (by decide),
    h.2.2.2 0 (by decide) (by decide) (by decide)⟩

/-- Claim C3: operands of rank 0 or 1 are reshaped by inserting leading
size-1 dimensions until the rank is exactly 2 (shape [n] becomes [1, n]),
while an operand of rank at least 2 passes through with no reshape; a dot
with both operands of shape [8] emits reshapes of both operands to [1,8]. -/
theorem ConvertDotOp_rank_promotion :
    (∀ ty : TensorType, ty.rank ≤ 1 →
       reshape_to_2d ty =
         ([DotEmitOp.reshape (normalize_rank ty)], normalize_rank ty) ∧
       (normalize_rank ty).shape =
         List.replicate (2 - ty.rank) 1 ++ ty.shape ∧
       (normalize_rank ty).rank = 2) ∧
    (∀ ty : TensorType, 2 ≤ ty.rank → reshape_to_2d ty = ([], ty)) ∧
    (∀ (n : Int) (ek : ElemKind), normalize_rank ⟨[n], ek⟩ = ⟨[1, n], ek⟩) ∧
    (∀ ek : ElemKind,
       (ConvertDotOp ⟨⟨[8], ek⟩, ⟨[8], ek⟩, ⟨[], ek⟩⟩).1.take 2 =
         [DotEmitOp.reshape ⟨[1, 8], ek⟩,
          DotEmitOp.reshape ⟨[1, 8], ek⟩]) := by
  refine ⟨?_, ?_, fun n ek => rfl, fun ek => rfl⟩
  · intro ty h
    have h2 : ¬ (ty.rank ≥ 2) := by omega
    have hn : normalize_rank ty =
        ⟨List.replicate (2 - ty.rank) 1 ++ ty.shape, ty.elemKind⟩ := by
      unfold normalize_rank
      rw [if_neg h2]
    refine ⟨?_, ?_, ?_⟩
    · unfold reshape_to_2d
      rw [if_neg h2]
    · rw [hn]
    · rw [hn]
      have h' : ty.shape.length ≤ 1 := h
      simp [TensorType.rank]
      omega
  · intro ty h
    unfold reshape_to_2d
    rw [if_pos h]

/-- Witness for C3: a shape-[8] operand is reshaped to [1,8]. -/
theorem ConvertDotOp_rank_promotion_witness :
    reshape_to_2d ⟨[8], ElemKind.f32⟩ =
      ([DotEmitOp.reshape ⟨[1, 8], ElemKind.f32⟩],
       (⟨[1, 8], ElemKind.f32⟩ : TensorType)) := by
  have h := (ConvertDotOp_rank_promotion.1 ⟨[8], ElemKind.f32⟩ (by decide)).1
  exact h.trans (by decide)

/-- Claim C4: the emitted matmul carries transpose_b = true exactly when the
rhs operand's original rank is 1; Scenario B ([8]·[8]) gets transpose_b =
true and Scenario C ([3,4]·[4,5]) gets transpose_b = false. -/
theorem ConvertDotOp_transpose_b (d : DotOp) :
    ((ConvertDotOp d).1.filter DotEmitOp.isMatMul =
      [DotEmitOp.matMul (normalize_rank d.resultType) false
        (d.rhsType.rank == 1)]) ∧
    ((ConvertDotOp dotScenarioB).1.filter DotEmitOp.isMatMul =
      [DotEmitOp.matMul ⟨[1, 1], ElemKind.f32⟩ false true]) ∧
    ((ConvertDotOp dotScenarioC).1.filter DotEmitOp.isMatMul =
      [DotEmitOp.matMul ⟨[3, 5], ElemKind.f32⟩ false false]) := by
  refine ⟨?_, by decide, by decide⟩
  unfold ConvertDotOp reshape_to_2d
  by_cases h1 : d.lhsType.rank ≥ 2 <;> by_cases h2 : d.rhsType.rank ≥ 2 <;>
    simp [h1, h2, DotEmitOp.isMatMul]

/-- Claim C5 counterexample: on Scenario C the rewrite does emit a reshape —
the unconditional output reshape — so "inserts no reshape operations at all
(neither on the operands nor on the output)" is false on the code. -/
theorem ConvertDotOp_scenarioC_counterexample :
    ¬ ((ConvertDotOp dotScenarioC).1.all
        (fun op => ! DotEmitOp.isReshape op) = true) := by decide

/-- Claim C5 (amended): on Scenario C no operand reshape is inserted and a
single matmul with transpose_b = false and shape [3,5] is emitted, but one
output reshape (from [3,5] back to [3,5]) is still created: the emitted
sequence is exactly [matmul, output reshape] and the returned type is
[3,5]. -/
theorem ConvertDotOp_scenarioC_amended :
    ConvertDotOp dotScenarioC =
      ([DotEmitOp.matMul ⟨[3, 5], ElemKind.f32⟩ false false,
        DotEmitOp.reshape ⟨[3, 5], ElemKind.f32⟩],
       (⟨[3, 5], ElemKind.f32⟩ : TensorType)) := by decide

/-- Claim C6: the value the dot rewrite returns is the result of the final
output reshape, and its type equals the dot's declared result type. -/
theorem ConvertDotOp_result_type_preserved (d : DotOp) :
    (ConvertDotOp d).2 = d.resultType ∧
    (ConvertDotOp d).1.getLast? =
      some (DotEmitOp.reshape d.resultType) := by
  refine ⟨rfl, ?_⟩
  unfold ConvertDotOp reshape_to_2d
  by_cases h1 : d.lhsType.rank ≥ 2 <;> by_cases h2 : d.rhsType.rank ≥ 2 <;>
    simp [h1, h2]

/-- Claim C7: legality is a pure function of the operation's kind: the `tf`
dialect is wholesale legal, the allow-list is exactly std.call and
std.constant, and everything else is illegal. -/
theorem LegalizeHloToTf_legality (k : OpKind) :
    (isLegal k = true ↔
      k.dialect = "tf" ∨
        (k.dialect = "std" ∧ (k.name = "call" ∨ k.name = "constant"))) ∧
    (∀ op₁ op₂ : Op, op₁.kind = op₂.kind →
      isLegalOp op₁ = isLegalOp op₂) := by
  constructor
  · unfold isLegal
    simp [Bool.or_eq_true, Bool.and_eq_true, beq_iff_eq]
  · intro a b h
    unfold isLegalOp
    rw [h]

/-- Witness for C7: std.call is allow-listed, and legality of two distinct
tf.Const operations of the same kind agrees. -/
theorem LegalizeHloToTf_legality_witness :
    isLegal ⟨"std", "call"⟩ = true ∧
    isLegalOp (Op.tfConst ⟨[], 64, []⟩) =
      isLegalOp (Op.tfConst ⟨[1], 32, [5]⟩) :=
  ⟨(LegalizeHloToTf_legality ⟨"std", "call"⟩).1.mpr
     (Or.inr ⟨rfl, Or.inl rfl⟩),
   (LegalizeHloToTf_legality ⟨"std", "call"⟩).2 _ _ rfl⟩

/-- Claim C8: an illegal operation with no applicable rule — for example the
stride-[2,1] slice — stays in the function and makes the conversion fail,
with an error emitted and pass failure signalled; when every operation is
legal or slice-rewritable the conversion succeeds and neither happens. -/
theorem LegalizeHloToTf_driver_result :
    (∀ (ops : List Op) (op : Op), op ∈ ops →
       isLegalOp op = false → sliceApplicable op = false →
       (LegalizeHloToTf_runOnFunction ops).passFailed = true ∧
       (LegalizeHloToTf_runOnFunction ops).errorEmitted = true ∧
       op ∈ (LegalizeHloToTf_runOnFunction ops).ops) ∧
    (∀ ops : List Op,
       (∀ op ∈ ops, isLegalOp op = true ∨ sliceApplicable op = true) →
       (LegalizeHloToTf_runOnFunction ops).passFailed = false ∧
       (LegalizeHloToTf_runOnFunction ops).errorEmitted = false) ∧
    ((LegalizeHloToTf_runOnFunction [Op.hloSlice sliceStride21]).passFailed
        = true ∧
     Op.hloSlice sliceStride21 ∈
       (LegalizeHloToTf_runOnFunction [Op.hloSlice sliceStride21]).ops) := by
  refine ⟨?_, ?_, by decide, by decide⟩
  · intro ops op hmem hl ha
    have hf := convertOps_fail ops op hmem hl ha
    refine ⟨?_, ?_, ?_⟩ <;> simp [LegalizeHloToTf_runOnFunction, hf.1, hf.2]
  · intro ops h
    have hok := convertOps_ok ops h
    simp [LegalizeHloToTf_runOnFunction, hok]

/-- Witness for C8: the stride-[2,1] one-op function fails; a function whose
only operation is already legal succeeds. -/
theorem LegalizeHloToTf_driver_result_witness :
    (LegalizeHloToTf_runOnFunction [Op.hloSlice sliceStride21]).passFailed
      = true ∧
    (LegalizeHloToTf_runOnFunction [Op.generic "tf" "Identity"]).passFailed
      = false :=
  ⟨(LegalizeHloToTf_driver_result.1 [Op.hloSlice sliceStride21]
      (Op.hloSlice sliceStride21) (by decide) (by decide) (by decide)).1,
   (LegalizeHloToTf_driver_result.2.1 [Op.generic "tf" "Identity"]
      (by decide)).1⟩

end LegalizeHlo
